import Mathlib

/-!
Verification of the MK3 frame codec, transport loop, handshake retry loop,
scaling function, DC-current field decoding and metrics-publishing cycle of
`data_multiplus.py`, shallowly embedded over lists of natural-number bytes.
A serial byte stream is modelled as the list of bytes that arrive before the
(bounded, 1 s) read timeouts: `read(n)` returns `take n` of what is left, so a
timed-out read simply yields fewer bytes than requested, as pyserial does.
-/

namespace Multiplus

/-- `int.from_bytes(bs, "big")`: big-endian interpretation of a byte string.
On the empty string it returns 0. -/
def intFromBytesBE (bs : List Nat) : Nat :=
  bs.foldl (fun a b => 256 * a + b) 0

/-- `makeMK3Command` (lines 38-51), with the hex string already parsed into its
list of byte values (`bytearray.fromhex`).  Builds
`[len+1, 0xFF] ++ command ++ [checksum]` where the code computes
`checksum = 256 - sum(buf) % 256` with no outer reduction mod 256. -/
def makeMK3Command (command : List Nat) : List Nat :=
  let length := command.length + 1
  let buf := [length, 0xFF] ++ command
  let checksum := 256 - buf.sum % 256
  buf ++ [checksum]

/-- `readResult` (lines 22-36) together with the bytes it leaves unread.
Reads one length byte `l` (0 if the stream is exhausted, as
`int.from_bytes(b'')` is 0), then up to `l + 1` further bytes, re-appends `l`,
and checks `sum(data) % 256 == 0`; `none` models the raised
`Exception("Checksum failed")`. -/
def readFrame (stream : List Nat) : Option (List Nat) × List Nat :=
  let l := intFromBytesBE (stream.take 1)
  let body := (stream.drop 1).take (l + 1)
  let data := body ++ [l]
  (if data.sum % 256 = 0 then some data else none, (stream.drop 1).drop (l + 1))

/-- The value returned by `readResult` on a given incoming byte stream. -/
def readResult (stream : List Nat) : Option (List Nat) :=
  (readFrame stream).1

/-- A well-formed frame on the wire: a length byte `l` followed by `l + 1`
bytes (payload plus checksum) whose sum together with `l` vanishes mod 256. -/
def ValidFrame (f : List Nat) : Prop :=
  ∃ l body, f = l :: body ∧ body.length = l + 1 ∧ (l + body.sum) % 256 = 0

instance : DecidablePred ValidFrame := fun f =>
  match f with
  | [] => .isFalse (by rintro ⟨l, body, h, -, -⟩; exact List.noConfusion h)
  | l :: body =>
      decidable_of_iff (body.length = l + 1 ∧ (l + body.sum) % 256 = 0)
        ⟨fun ⟨h1, h2⟩ => ⟨l, body, rfl, h1, h2⟩,
         fun ⟨l', body', h, h1, h2⟩ => by
           obtain ⟨rfl, rfl⟩ : l = l' ∧ body = body' :=
             ⟨(List.cons.injEq ..).mp h |>.1, (List.cons.injEq ..).mp h |>.2⟩
           exact ⟨h1, h2⟩⟩

/-- The data `readResult` hands back for a frame `l :: body`: the body with the
length byte re-appended at the end. -/
def frameData (f : List Nat) : List Nat :=
  f.drop 1 ++ f.take 1

/-- The "unsolicited version broadcast" test of `sendMK3Command` (line 61),
phrased on the wire frame: its first two payload bytes are `0xFF` and
`0x56` (`'V'`), i.e. frame bytes at positions 1 and 2. -/
def IsBroadcast (f : List Nat) : Prop :=
  f.getD 1 0 = 0xFF ∧ f.getD 2 0 = 0x56

instance : DecidablePred IsBroadcast := fun f =>
  decidable_of_iff (f.getD 1 0 = 0xFF ∧ f.getD 2 0 = 0x56) Iff.rfl

/-- The read loop of `sendMK3Command` (lines 53-63): repeatedly `readResult`
until a frame arrives whose data fails the broadcast test, and return that
data.  A checksum failure propagates (`none`).  The outbound
`mk3.write(makeMK3Command c)` does not influence the value returned, so the
model takes the incoming stream directly; `fuel` bounds the iterations (any
`fuel > stream.length` is enough, since each iteration consumes at least one
byte of a nonempty stream and an empty stream ends the loop). -/
def sendMK3Command (fuel : Nat) (stream : List Nat) : Option (List Nat) :=
  match fuel with
  | 0 => none
  | fuel + 1 =>
    match readFrame stream with
    | (none, _) => none
    | (some data, rest) =>
      if data.getD 0 0 = 0xFF ∧ data.getD 1 0 = 0x56 then
        sendMK3Command fuel rest
      else
        some data

/-- `scalefunc` (lines 66-70) over exact rationals; `none` models the
`ZeroDivisionError` Python raises from `1.0/(0x8000 - s)` when the
denominator is zero. -/
def scalefunc (factor : Int) : Option ℚ :=
  let s := |factor|
  if 0x4000 ≤ s then
    if (0x8000 : Int) - s = 0 then none
    else some (1 / (0x8000 - (s : ℚ)))
  else some ((s : ℚ))

/-- The DC-current decoding of `readMultiplus` (line 126):
`unpack('<i', data[8:11] + (b'\x00' if data[10] < 0x80 else b'\xFF'))[0]`.
`b0, b1, b2` are the three little-endian bytes `data[8]`, `data[9]`,
`data[10]`; a fourth byte replicating the sign bit is appended and the four
bytes are read as a little-endian signed 32-bit integer. -/
def decodeDCCurrent (b0 b1 b2 : Nat) : Int :=
  let ext : Nat := if b2 < 0x80 then 0x00 else 0xFF
  let u : Nat := b0 + 2 ^ 8 * b1 + 2 ^ 16 * b2 + 2 ^ 24 * ext
  if u < 2 ^ 31 then (u : Int) else (u : Int) - 2 ^ 32

/-- Outcome of one `sendMK3Command('41 01 00')` call inside `initMK3`: the
call either returns normally or raises (a checksum failure in `readResult`
raises the plain `Exception("Checksum failed")`). -/
inductive AttemptOutcome
  | success
  | raises
deriving DecidableEq

/-- How the `for i in range(0, 3)` retry loop of `initMK3` (lines 81-88)
terminates.  `done n`: attempt `n` returned normally and the `else: break`
left the loop.  `crashedNameError n`: attempt `n` raised; Python then
evaluates the except clause `(ValueError, struct_error)`, and since the name
`struct_error` is never defined in the script (only `import struct` and
`from struct import unpack` exist), this evaluation raises `NameError`,
which propagates out of `initMK3` uncaught.  `exhausted`: all iterations ran
without a `break`. -/
inductive InitResult
  | done (attempts : Nat)
  | crashedNameError (attempts : Nat)
  | exhausted
deriving DecidableEq

/-- The retry loop of `initMK3`, iterating over the attempt indices it has
left; `outcomes i` is the outcome of the `i`-th call (0-based). -/
def initMK3Loop (outcomes : Nat → AttemptOutcome) : Nat → Nat → InitResult
  | _, 0 => InitResult.exhausted
  | i, _ + 1 =>
    match outcomes i with
    | AttemptOutcome.success => InitResult.done (i + 1)
    | AttemptOutcome.raises => InitResult.crashedNameError (i + 1)

/-- `initMK3`'s address-assignment phase: the loop entered at `i = 0` with
the 3 iterations of `range(0, 3)`. -/
def initMK3 (outcomes : Nat → AttemptOutcome) : InitResult :=
  initMK3Loop outcomes 0 3

/-- The two files the publisher loop touches: the temporary file
`/ramdisk/VICTRON_MULTIPLUS.prom.tmp` and the published file
`/ramdisk/VICTRON_MULTIPLUS.prom`, each as the list of lines it holds. -/
structure FS where
  tmp : List String
  prom : List String
deriving DecidableEq

/-- The file operations one polling cycle performs: `openTmp` is
`open(..., mode='w')` (truncates the temporary file), `writeTmp` is one
`print(dataStr, file=fileObj)`, `mvTmpToProm` is the
`/bin/mv` of the temporary file over the published file. -/
inductive FileOp
  | openTmp
  | writeTmp (line : String)
  | mvTmpToProm
deriving DecidableEq

/-- Effect of one file operation. -/
def applyOp (fs : FS) : FileOp → FS
  | FileOp.openTmp => { fs with tmp := [] }
  | FileOp.writeTmp line => { fs with tmp := fs.tmp ++ [line] }
  | FileOp.mvTmpToProm => { tmp := [], prom := fs.tmp }

/-- Run a sequence of file operations. -/
def runOps (fs : FS) (ops : List FileOp) : FS :=
  ops.foldl applyOp fs

/-- The file operations of one iteration of the `while True` polling loop
(lines 175-186) writing the metric lines `lines` (the three `dataStr` lines
of `readMultiplus`).  `errAfter = some k` models an exception raised after
`k` of the lines were printed (every failure point of `readMultiplus`, of
`flush` and of `close` falls inside the `try`, before the `mv`, which is
then skipped and the cycle ends at the `except` handler); `errAfter = none`
is the error-free cycle, which runs the `mv` after all lines are written. -/
def cycleOps (lines : List String) (errAfter : Option Nat) : List FileOp :=
  match errAfter with
  | some k => FileOp.openTmp :: (lines.take k).map FileOp.writeTmp
  | none => FileOp.openTmp :: lines.map FileOp.writeTmp ++ [FileOp.mvTmpToProm]

/-! ### Helper lemmas -/

theorem intFromBytesBE_single (x : Nat) : intFromBytesBE [x] = x := by
  simp [intFromBytesBE]

/-- `readFrame` on a stream that starts with a well-formed `l`-frame consumes
exactly that frame, and checks exactly `(l + sum body) % 256 = 0`. -/
theorem readFrame_cons (l : Nat) (body s : List Nat) (hlen : body.length = l + 1) :
    readFrame (l :: (body ++ s)) =
      (if (l + body.sum) % 256 = 0 then some (body ++ [l]) else none, s) := by
  have h1 : (l :: (body ++ s)).take 1 = [l] := rfl
  have h2 : (l :: (body ++ s)).drop 1 = body ++ s := rfl
  unfold readFrame
  rw [h1, h2, intFromBytesBE_single]
  dsimp only
  rw [← hlen, List.take_left, List.drop_left]
  simp [Nat.add_comm]

/-- The shape of an encoded command: length byte, `0xFF`, the payload, and
the checksum byte the code computes. -/
theorem makeMK3Command_eq (P : List Nat) :
    makeMK3Command P =
      (P.length + 1) :: ((0xFF :: (P ++ [256 - (P.length + 256 + P.sum) % 256])) ++ []) := by
  simp [makeMK3Command]
  omega

/-! ### Claim theorems -/

/-- C1, amended: for every payload `P`, decoding the bytes produced by
`makeMK3Command P` with `readResult` succeeds (the checksum check passes) and
the declared length is `len(P) + 1`, but the returned data is
`[0xFF] ++ P ++ [checksum, len(P) + 1]`: the `0xFF` marker byte precedes the
payload, the checksum byte is not stripped, and the length byte is
re-appended at the end rather than being returned as a separate field. -/
theorem readResult_makeMK3Command (P : List Nat) :
    readResult (makeMK3Command P) =
      some (0xFF :: (P ++ [256 - (P.length + 256 + P.sum) % 256, P.length + 1])) := by
  rw [readResult, makeMK3Command_eq P, readFrame_cons _ _ _ (by simp)]
  rw [if_pos (by simp; omega)]
  simp

/-- C1, counterexample: at payload `[0x41, 0x01, 0x00]` (the handshake
command), `readResult (makeMK3Command P)` is
`[0xFF, 0x41, 0x01, 0x00, 0xBB, 0x04]` and not the bare payload
`[0x41, 0x01, 0x00]`: the checksum `0xBB` is not stripped from the returned
data. -/
theorem readResult_not_stripped :
    readResult (makeMK3Command [0x41, 0x01, 0x00]) =
        some [0xFF, 0x41, 0x01, 0x00, 0xBB, 0x04] ∧
      readResult (makeMK3Command [0x41, 0x01, 0x00]) ≠ some [0x41, 0x01, 0x00] := by
  decide

/-- C2: at payload `[0xFF]` the header-and-payload sum `2 + 0xFF + 0xFF = 512`
is a multiple of 256, and `makeMK3Command` appends `256 - 512 % 256 = 256` —
not a byte in `0..255` as the checksum of the interface protocol must be
(writing this list to the serial port raises `ValueError`), where the spec's
formula `(256 - sum % 256) % 256` gives the byte `0`. -/
theorem makeMK3Command_checksum_overflow :
    makeMK3Command [0xFF] = [0x02, 0xFF, 0xFF, 256] ∧
      ¬ ∀ b ∈ makeMK3Command [0xFF], b < 256 := by
  decide

/-- Replacing the element at a position of a list shifts the sum by the
difference between the new and the old value. -/
theorem sum_set_add (l : List Nat) (i a : Nat) (h : i < l.length) :
    (l.set i a).sum + l.getD i 0 = l.sum + a := by
  induction l generalizing i with
  | nil => simp at h
  | cons x xs ih =>
    cases i with
    | zero => simp; omega
    | succ n =>
      rw [List.set_cons_succ, List.sum_cons, List.sum_cons, List.getD_cons_succ]
      have := ih n (by simpa using h)
      omega

/-- `readResult` on a stream whose first byte is `l`: it checks exactly
`(l + sum of the (at most) l + 1 bytes read)` mod 256. -/
theorem readResult_cons (l : Nat) (rest : List Nat) :
    readResult (l :: rest) =
      if (l + (rest.take (l + 1)).sum) % 256 = 0 then some (rest.take (l + 1) ++ [l])
      else none := by
  have h1 : (l :: rest).take 1 = [l] := rfl
  have h2 : (l :: rest).drop 1 = rest := rfl
  unfold readResult readFrame
  rw [h1, h2, intFromBytesBE_single]
  dsimp only
  simp [Nat.add_comm]

/-- C3, amended: (i) `readResult`, after reading the length byte `l` and the
`l + 1` further bytes `rest`, fails with the checksum exception iff
`(l + sum rest) % 256 ≠ 0`.  (ii) Every single-byte corruption of an encoded
frame at a position other than the length byte (old and new value bytes in
`0..255`, new value different) makes decoding fail, because it necessarily
changes the modular sum of the validated data.  Corrupting the length byte
itself, however, can make the decoder read a shorter prefix that passes the
checksum even though the frame's modular sum changed (see the
counterexample), so the claim's "every single-byte corruption" does not
hold as stated. -/
theorem readResult_checksum_iff_and_corruption :
    (∀ (stream : List Nat) (l : Nat), stream.head? = some l →
      l + 2 ≤ stream.length →
      (readResult stream = none ↔ (l + ((stream.drop 1).take (l + 1)).sum) % 256 ≠ 0)) ∧
    (∀ (P : List Nat) (i b : Nat), 1 ≤ i → i < (makeMK3Command P).length →
      (∀ x ∈ makeMK3Command P, x < 256) → b < 256 →
      b ≠ (makeMK3Command P).getD i 0 →
      readResult ((makeMK3Command P).set i b) = none) := by
  constructor
  · intro stream l hhead _
    match stream, hhead with
    | _ :: rest, rfl =>
      rw [readResult_cons]
      have h2 : (l :: rest).drop 1 = rest := rfl
      rw [h2]
      by_cases h : (l + (rest.take (l + 1)).sum) % 256 = 0 <;> simp [h]
  · intro P i b hi hilen hbytes hb hne
    obtain ⟨j, rfl⟩ : ∃ j, i = j + 1 := ⟨i - 1, by omega⟩
    have hM : makeMK3Command P =
        (P.length + 1) :: (0xFF :: (P ++ [256 - (P.length + 256 + P.sum) % 256])) := by
      rw [makeMK3Command_eq]; simp
    have hrl : (0xFF :: (P ++ [256 - (P.length + 256 + P.sum) % 256])).length =
        (P.length + 1) + 1 := by simp
    have hjlen : j < (0xFF :: (P ++ [256 - (P.length + 256 + P.sum) % 256])).length := by
      rw [hM] at hilen; simp at hilen ⊢; omega
    have hks : ((P.length + 1) +
        (0xFF :: (P ++ [256 - (P.length + 256 + P.sum) % 256])).sum) % 256 = 0 := by
      simp; omega
    have hsum := sum_set_add (0xFF :: (P ++ [256 - (P.length + 256 + P.sum) % 256])) j b hjlen
    have hold : (0xFF :: (P ++ [256 - (P.length + 256 + P.sum) % 256])).getD j 0 < 256 := by
      refine hbytes _ ?_
      rw [hM]
      exact List.mem_cons_of_mem _
        (by rw [List.getD_eq_getElem _ _ hjlen]; exact List.getElem_mem hjlen)
    have hne' : b ≠ (0xFF :: (P ++ [256 - (P.length + 256 + P.sum) % 256])).getD j 0 := by
      rw [hM, List.getD_cons_succ] at hne; exact hne
    rw [hM, List.set_cons_succ, readResult_cons]
    rw [List.take_of_length_le (by rw [List.length_set, hrl])]
    rw [if_neg]
    omega

/-- C3, counterexample: for the encoded frame of payload `[0x00, 0x05]`,
corrupting the length byte `0x03` to `0x01` changes the frame's modular sum
(from `0` to `254` mod 256), yet `readResult` succeeds: it reads only the
two-byte prefix `[0xFF, 0x00]`, whose sum plus the corrupted length `0x01`
is `256 ≡ 0`, and returns `[0xFF, 0x00, 0x01]`. -/
theorem readResult_length_corruption_succeeds :
    (makeMK3Command [0x00, 0x05]).set 0 0x01 = [0x01, 0xFF, 0x00, 0x05, 0xF9] ∧
      ((makeMK3Command [0x00, 0x05]).set 0 0x01).sum % 256 ≠
        (makeMK3Command [0x00, 0x05]).sum % 256 ∧
      readResult ((makeMK3Command [0x00, 0x05]).set 0 0x01) = some [0xFF, 0x00, 0x01] := by
  decide

/-- Witness for `readResult_checksum_iff_and_corruption` at concrete inputs:
the stream `[0x02, 0xFF, 0x41, 0xBE]` decodes successfully (its sum check
passes), and the encoded frame of `[0x00, 0x05]` with payload byte at
position 2 corrupted from `0x00` to `0x07` fails to decode. -/
theorem readResult_checksum_witness :
    (readResult [0x02, 0xFF, 0x41, 0xBE] = none ↔
        (0x02 + (([0x02, 0xFF, 0x41, 0xBE].drop 1).take 3).sum) % 256 ≠ 0) ∧
      readResult ((makeMK3Command [0x00, 0x05]).set 2 0x07) = none := by
  refine ⟨?_, ?_⟩
  · exact readResult_checksum_iff_and_corruption.1 [0x02, 0xFF, 0x41, 0xBE] 0x02 rfl
      (by decide)
  · exact readResult_checksum_iff_and_corruption.2 [0x00, 0x05] 2 0x07 (by decide)
      (by decide) (by decide) (by decide) (by decide)

/-- C4: evaluating the handshake loop at the failing input (the first
`sendMK3Command('41 01 00')` attempt raises, e.g. because the response fails
the checksum check).  The loop does not retry: the except clause's tuple
`(ValueError, struct_error)` names the undefined `struct_error`, so Python
raises `NameError` out of `initMK3` after the first failed attempt.
Consequently, for every sequence of attempt outcomes the loop makes exactly
one attempt — it never reaches a second or third attempt and never
terminates by exhausting the three iterations. -/
theorem initMK3_crashes_on_first_failure :
    initMK3 (fun _ => AttemptOutcome.raises) = InitResult.crashedNameError 1 ∧
      ∀ outcomes : Nat → AttemptOutcome,
        initMK3 outcomes = InitResult.done 1 ∨
          initMK3 outcomes = InitResult.crashedNameError 1 := by
  refine ⟨rfl, ?_⟩
  intro o
  unfold initMK3 initMK3Loop
  cases h : o 0 <;> simp [h]

/-- C5, amended: each serial read has a bounded wait (`mk3.timeout = 1`), but
on exceeding it pyserial returns the bytes received so far without raising;
no `TimeoutError` exists in this code.  For every stream shorter than the
`l + 2` bytes the two reads request (i.e. every timed-out transfer),
`readResult` silently runs its checksum check over the partial data — the
only failure mode is the checksum exception, and the check can even pass on
truncated data. -/
theorem readResult_short_read_no_timeout :
    ∀ stream : List Nat, stream.length < intFromBytesBE (stream.take 1) + 2 →
      readResult stream =
        if (intFromBytesBE (stream.take 1) + (stream.drop 1).sum) % 256 = 0 then
          some (stream.drop 1 ++ [intFromBytesBE (stream.take 1)])
        else none := by
  intro stream hshort
  match stream with
  | [] => decide
  | l :: rest =>
    have h1 : (l :: rest).take 1 = [l] := rfl
    have h2 : (l :: rest).drop 1 = rest := rfl
    rw [h1, intFromBytesBE_single] at hshort ⊢
    rw [h2, readResult_cons, List.take_of_length_le (by simp at hshort; omega)]

/-- C5, counterexample: on a fully silent line both reads time out and return
empty byte strings; `readResult` then takes `l = int.from_bytes(b'') = 0`,
appends it to the empty data, finds `sum([0]) % 256 = 0` and returns
`bytearray([0])` — a successful result built from zero received bytes, with
no `TimeoutError` raised. -/
theorem readResult_empty_stream : readResult [] = some [0] := by decide

/-- Witness for `readResult_short_read_no_timeout`: the truncated stream
`[0x05, 0x01]` (declared length 5, one byte delivered) is checksum-checked
over the single delivered byte and rejected with the checksum exception. -/
theorem readResult_short_read_witness : readResult [0x05, 0x01] = none := by
  rw [readResult_short_read_no_timeout [0x05, 0x01] (by decide)]
  decide

/-- One iteration of the `sendMK3Command` read loop on a stream that starts
with a well-formed frame: the frame's data is returned unless it passes the
broadcast test, in which case the loop continues on the remaining bytes. -/
theorem sendMK3Command_step (fuel : Nat) (l : Nat) (body s : List Nat)
    (hlen : body.length = l + 1) (hsum : (l + body.sum) % 256 = 0) :
    sendMK3Command (fuel + 1) (l :: (body ++ s)) =
      if (body ++ [l]).getD 0 0 = 0xFF ∧ (body ++ [l]).getD 1 0 = 0x56 then
        sendMK3Command fuel s
      else some (body ++ [l]) := by
  rw [sendMK3Command, readFrame_cons l body s hlen, if_pos hsum]

/-- The broadcast test `data[0] == 0xFF and data[1] == 0x56` applied to the
data `body ++ [l]` returned by `readResult` agrees with the broadcast
signature read off the wire frame `l :: body` (payload bytes 1 and 2). -/
theorem frameData_broadcast_test (l : Nat) (body : List Nat)
    (hlen : body.length = l + 1) :
    ((body ++ [l]).getD 0 0 = 0xFF ∧ (body ++ [l]).getD 1 0 = 0x56) ↔
      IsBroadcast (l :: body) := by
  match body, hlen with
  | [x], hlen =>
    obtain rfl : l = 0 := by simpa using hlen.symm
    simp [IsBroadcast]
  | x :: y :: t, _ => simp [IsBroadcast]

/-- C6: for every incoming stream made of `N` well-formed broadcast frames
(first two payload bytes `0xFF 0x56`) followed by a well-formed
non-broadcast frame `g`, the read loop of `sendMK3Command` silently discards
all `N` broadcast frames and returns the data of `g` (its body with the
length byte re-appended, as `readResult` produces it). -/
theorem sendMK3Command_skips_broadcasts :
    ∀ (bs : List (List Nat)) (g : List Nat) (fuel : Nat),
      (∀ f ∈ bs, ValidFrame f ∧ IsBroadcast f) →
      ValidFrame g → ¬ IsBroadcast g → bs.length < fuel →
      sendMK3Command fuel (bs.flatten ++ g) = some (frameData g) := by
  intro bs
  induction bs with
  | nil =>
    intro g fuel _ hg hng hfuel
    obtain ⟨l, body, rfl, hlen, hsum⟩ := hg
    match fuel, hfuel with
    | fuel + 1, _ =>
      have hstream : List.flatten [] ++ (l :: body) = l :: (body ++ []) := by simp
      rw [hstream, sendMK3Command_step fuel l body [] hlen hsum,
        if_neg (fun hc => hng ((frameData_broadcast_test l body hlen).mp hc))]
      simp [frameData]
  | cons f bs ih =>
    intro g fuel hbs hg hng hfuel
    obtain ⟨hf, hbf⟩ := hbs f (List.mem_cons_self f bs)
    obtain ⟨l, body, rfl, hlen, hsum⟩ := hf
    match fuel, hfuel with
    | fuel + 1, hfuel =>
      have hstream : List.flatten ((l :: body) :: bs) ++ g =
          l :: (body ++ (bs.flatten ++ g)) := by simp
      rw [hstream, sendMK3Command_step fuel l body (bs.flatten ++ g) hlen hsum,
        if_pos ((frameData_broadcast_test l body hlen).mpr hbf)]
      exact ih g fuel (fun f hf => hbs f (List.mem_cons_of_mem _ hf)) hg hng
        (by simp at hfuel ⊢; omega)

/-- Witness for `sendMK3Command_skips_broadcasts`: one broadcast frame
`[0x03, 0xFF, 0x56, 0x00, 0xA8]` followed by the genuine frame
`[0x02, 0xFF, 0x41, 0xBE]`; the loop discards the broadcast and returns the
genuine frame's data. -/
theorem sendMK3Command_skips_broadcasts_witness :
    sendMK3Command 2 [0x03, 0xFF, 0x56, 0x00, 0xA8, 0x02, 0xFF, 0x41, 0xBE] =
      some [0xFF, 0x41, 0xBE, 0x02] := by
  have h := sendMK3Command_skips_broadcasts [[0x03, 0xFF, 0x56, 0x00, 0xA8]]
    [0x02, 0xFF, 0x41, 0xBE] 2 (by decide) (by decide) (by decide) (by decide)
  simpa [frameData] using h

/-- C7, amended: for every integer factor whose absolute value is not
`0x8000`, `scalefunc` returns `1.0 / (0x8000 - abs factor)` when
`abs factor ≥ 0x4000` and `abs factor` otherwise; `scale (-x) = scale x`
for every `x`; `scale 0x3FFF = 0x3FFF` and
`scale 0x4001 = 1.0 / (0x8000 - 0x4001)`.  At `abs factor = 0x8000`
(the int16 value `-32768`) the reciprocal branch divides by zero and the
function raises instead of returning, so the unrestricted "for every integer
factor" of the claim fails there (see the counterexample). -/
theorem scalefunc_spec_amended :
    (∀ factor : Int, |factor| ≠ 0x8000 →
      scalefunc factor =
        if 0x4000 ≤ |factor| then some (1 / (0x8000 - ((|factor| : Int) : ℚ)))
        else some (((|factor| : Int) : ℚ))) ∧
      (∀ factor : Int, scalefunc (-factor) = scalefunc factor) ∧
      scalefunc 0x3FFF = some 0x3FFF ∧
      scalefunc 0x4001 = some (1 / (0x8000 - 0x4001)) := by
  refine ⟨?_, ?_, ?_, ?_⟩
  · intro f hf
    simp only [scalefunc]
    set s := |f| with hs
    by_cases h : (0x4000 : Int) ≤ s
    · rw [if_pos h, if_pos h, if_neg (by omega)]
    · rw [if_neg h, if_neg h]
  · intro f
    simp only [scalefunc, abs_neg]
  · norm_num [scalefunc]
  · norm_num [scalefunc]

/-- C7, counterexample: at `factor = -32768` (an int16 value delivered by
`unpack('<h', ...)`), `abs factor = 0x8000` makes the denominator
`0x8000 - s` zero and `scalefunc` raises `ZeroDivisionError` instead of
returning a value. -/
theorem scalefunc_min_int16_raises : scalefunc (-0x8000) = none := by
  norm_num [scalefunc]

/-- Witness for `scalefunc_spec_amended`: at `factor = -0x4001` the symmetry
part and the reciprocal branch (hypothesis `|factor| ≠ 0x8000` discharged)
give the concrete value. -/
theorem scalefunc_spec_amended_witness :
    scalefunc (-0x4001) = some (1 / (0x8000 - ((0x4001 : Int) : ℚ))) := by
  rw [scalefunc_spec_amended.2.1 0x4001, scalefunc_spec_amended.1 0x4001 (by decide)]
  norm_num

/-- C10: `scalefunc` is well-defined for every factor whose absolute value is
not `0x8000` (it returns a value), and at the int16 value `-32768` — whose
absolute value is `0x8000` — the reciprocal branch's denominator
`0x8000 - s` is zero and the function fails with `ZeroDivisionError`. -/
theorem scalefunc_total_except_min_int16 :
    (∀ factor : Int, |factor| ≠ 0x8000 → ∃ q : ℚ, scalefunc factor = some q) ∧
      scalefunc (-32768) = none := by
  constructor
  · intro f hf
    simp only [scalefunc]
    set s := |f| with hs
    by_cases h : (0x4000 : Int) ≤ s
    · rw [if_pos h, if_neg (by omega)]
      exact ⟨_, rfl⟩
    · rw [if_neg h]
      exact ⟨_, rfl⟩
  · norm_num [scalefunc]

/-- Witness for `scalefunc_total_except_min_int16`: the int16 factor `16400`
satisfies the hypothesis and yields a value. -/
theorem scalefunc_total_witness : ∃ q : ℚ, scalefunc 16400 = some q :=
  scalefunc_total_except_min_int16.1 16400 (by decide)

/-- C8: for all byte values `b0 b1 b2`, the DC-current decoding equals the
24-bit two's-complement value of the three little-endian bytes (the 32-bit
reading subtracts `2^24` exactly when the sign bit of the third byte is
set), and it is negative exactly when the high bit of the third byte is
set; in particular bytes `[0x00, 0x00, 0x80]` decode to a negative value
and `[0x00, 0x00, 0x7F]` to a positive one. -/
theorem decodeDCCurrent_sign :
    (∀ b0 b1 b2 : Nat, b0 < 256 → b1 < 256 → b2 < 256 →
      (decodeDCCurrent b0 b1 b2 =
          ((b0 + 2 ^ 8 * b1 + 2 ^ 16 * b2 : Nat) : Int) -
            (if 0x80 ≤ b2 then 2 ^ 24 else 0)) ∧
        (decodeDCCurrent b0 b1 b2 < 0 ↔ 0x80 ≤ b2)) ∧
      decodeDCCurrent 0x00 0x00 0x80 < 0 ∧ 0 < decodeDCCurrent 0x00 0x00 0x7F := by
  refine ⟨?_, by decide, by decide⟩
  intro b0 b1 b2 h0 h1 h2
  simp only [decodeDCCurrent]
  split_ifs <;> constructor <;> push_cast <;> omega

/-- Witness for `decodeDCCurrent_sign` at the concrete bytes
`[0x12, 0x34, 0xFE]` (sign bit set). -/
theorem decodeDCCurrent_sign_witness :
    decodeDCCurrent 0x12 0x34 0xFE =
        ((0x12 + 2 ^ 8 * 0x34 + 2 ^ 16 * 0xFE : Nat) : Int) -
          (if (0x80 : Nat) ≤ 0xFE then 2 ^ 24 else 0) ∧
      (decodeDCCurrent 0x12 0x34 0xFE < 0 ↔ (0x80 : Nat) ≤ (0xFE : Nat)) :=
  decodeDCCurrent_sign.1 0x12 0x34 0xFE (by decide) (by decide) (by decide)

/-- Running operations that never promote the temporary file leaves the
published file untouched. -/
theorem runOps_no_mv_prom :
    ∀ (ops : List FileOp) (fs : FS), FileOp.mvTmpToProm ∉ ops →
      (runOps fs ops).prom = fs.prom := by
  intro ops
  induction ops with
  | nil => intro fs _; rfl
  | cons op ops ih =>
    intro fs h
    have h2 : FileOp.mvTmpToProm ∉ ops := fun hm => h (List.mem_cons_of_mem _ hm)
    calc (runOps fs (op :: ops)).prom
        = (runOps (applyOp fs op) ops).prom := rfl
      _ = (applyOp fs op).prom := ih _ h2
      _ = fs.prom := by
          cases op with
          | openTmp => rfl
          | writeTmp line => rfl
          | mvTmpToProm => exact absurd (List.mem_cons_self FileOp.mvTmpToProm ops) h

/-- Writing a sequence of lines appends them to the temporary file and leaves
the published file untouched. -/
theorem runOps_writes_tmp :
    ∀ (lines : List String) (fs : FS),
      runOps fs (lines.map FileOp.writeTmp) =
        { tmp := fs.tmp ++ lines, prom := fs.prom } := by
  intro lines
  induction lines with
  | nil => intro fs; simp [runOps]
  | cons l ls ih =>
    intro fs
    calc runOps fs ((l :: ls).map FileOp.writeTmp)
        = runOps { tmp := fs.tmp ++ [l], prom := fs.prom } (ls.map FileOp.writeTmp) := rfl
      _ = { tmp := (fs.tmp ++ [l]) ++ ls, prom := fs.prom } := ih _
      _ = { tmp := fs.tmp ++ l :: ls, prom := fs.prom } := by simp

/-- C9: in one polling cycle, if any error occurs (after any number `k` of
the metric lines were already printed to the temporary file), the rename is
skipped and the published file still holds exactly what it held before; only
the error-free cycle, which runs the rename after all lines were written,
replaces the published file — and then with exactly the cycle's complete
set of lines.  The published file therefore always holds either the complete
previous contents or the complete new sample. -/
theorem cycle_publishes_atomically :
    ∀ (fs : FS) (lines : List String) (errAfter : Option Nat),
      (errAfter ≠ none → (runOps fs (cycleOps lines errAfter)).prom = fs.prom) ∧
        (errAfter = none → (runOps fs (cycleOps lines errAfter)).prom = lines) := by
  intro fs lines errAfter
  constructor
  · intro herr
    match errAfter, herr with
    | some k, _ =>
      refine runOps_no_mv_prom _ _ ?_
      intro hmem
      rw [cycleOps] at hmem
      rcases List.mem_cons.mp hmem with h | h
      · exact FileOp.noConfusion h
      · obtain ⟨line, -, hline⟩ := List.mem_map.mp h
        exact FileOp.noConfusion hline
  · rintro rfl
    rw [cycleOps]
    calc (runOps fs (FileOp.openTmp :: (lines.map FileOp.writeTmp ++ [FileOp.mvTmpToProm]))).prom
        = (runOps { tmp := [], prom := fs.prom }
            (lines.map FileOp.writeTmp ++ [FileOp.mvTmpToProm])).prom := rfl
      _ = (applyOp (runOps { tmp := [], prom := fs.prom } (lines.map FileOp.writeTmp))
            FileOp.mvTmpToProm).prom := by rw [runOps, List.foldl_append]; rfl
      _ = lines := by rw [runOps_writes_tmp]; simp [applyOp]

/-- Witness for `cycle_publishes_atomically`: starting from a published file
holding `["old"]`, a cycle that fails after printing 2 of its 3 lines leaves
`["old"]` published, while the error-free cycle publishes exactly
`["a", "b", "c"]`. -/
theorem cycle_publishes_atomically_witness :
    (runOps ⟨["x"], ["old"]⟩ (cycleOps ["a", "b", "c"] (some 2))).prom = ["old"] ∧
      (runOps ⟨["x"], ["old"]⟩ (cycleOps ["a", "b", "c"] none)).prom = ["a", "b", "c"] :=
  ⟨(cycle_publishes_atomically ⟨["x"], ["old"]⟩ ["a", "b", "c"] (some 2)).1 (by simp),
    (cycle_publishes_atomically ⟨["x"], ["old"]⟩ ["a", "b", "c"] none).2 rfl⟩

end Multiplus
